import Mathlib

/-!
A shallow embedding of `generate_pdf_request.py`, a CLI tool that validates
waiver filenames against a naming pattern, matches record identifiers to
files by a filename glob, reports unmatched and ambiguous identifiers, and
hands the resolved paths to a placeholder assembly step.

Python strings are modelled as `List Char`.  Filesystem state is passed in
explicitly: a directory is a list of entries (a name together with a
regular-file flag), a text file is the list of its physical lines.  POSIX
semantics (case-sensitive name matching) are assumed, matching the
deployment the script targets.  Matched files are represented by their
entry names.
-/

namespace PdfReq

/-- The `[0-9]` character class of the validator's regex. -/
def isDigitChar (c : Char) : Bool := decide ('0' ≤ c ∧ c ≤ '9')

/-- The `[A-Za-z ]` character class of the validator's regex. -/
def isAlphaSpace (c : Char) : Bool :=
  decide ('A' ≤ c ∧ c ≤ 'Z') || decide ('a' ≤ c ∧ c ≤ 'z') || c == ' '

/-- ASCII whitespace, the characters removed by Python's `str.strip()`. -/
def isPySpace (c : Char) : Bool :=
  c == ' ' || c == '\t' || c == '\n' || c == '\r' || c == '\x0b' || c == '\x0c'

/-- Python `str.strip()`: drop leading and trailing whitespace. -/
def pyStrip (s : List Char) : List Char :=
  (((s.dropWhile isPySpace).reverse).dropWhile isPySpace).reverse

/-- Python `str.lower()` restricted to the ASCII range (the prompt answer
compared against `'y'`). -/
def pyLower (s : List Char) : List Char :=
  s.map fun c => if 'A' ≤ c ∧ c ≤ 'Z' then Char.ofNat (c.toNat + 32) else c

/-! ### Glob matching (`pathlib.Path.glob` on a single path component)

`Path.glob` compiles its pattern with `fnmatch.translate` and full-matches
each directory entry name: `*` becomes `.*` under DOTALL, `?` becomes `.`,
a bracket expression becomes a regex character class (`!` negates, a first
`]` is literal, and a `[` with no closing bracket is a literal `[`), and
the whole regex is `\Z`-anchored. -/

/-- One token of a compiled glob pattern. -/
inductive GlobTok where
  | star
  | any
  | lit (c : Char)
  | cls (neg : Bool) (cs : List Char)
deriving DecidableEq

/-- Scan for the closing `]` of a bracket expression, returning the class
body and the remainder of the pattern. -/
def findClose : List Char → Option (List Char × List Char)
  | [] => none
  | ']' :: rest => some ([], rest)
  | c :: rest =>
    match findClose rest with
    | none => none
    | some (cs, r) => some (c :: cs, r)

/-- Parse a bracket-expression body (the part after `[`): an optional `!`
negation, then a first `]` taken literally, then characters up to the
closing `]`.  `none` when no closing bracket exists. -/
def splitClass : List Char → Option (Bool × List Char × List Char)
  | '!' :: ']' :: rest =>
    match findClose rest with
    | none => none
    | some (cs, r) => some (true, ']' :: cs, r)
  | '!' :: rest =>
    match findClose rest with
    | none => none
    | some (cs, r) => some (true, cs, r)
  | ']' :: rest =>
    match findClose rest with
    | none => none
    | some (cs, r) => some (false, ']' :: cs, r)
  | rest =>
    match findClose rest with
    | none => none
    | some (cs, r) => some (false, cs, r)

/-- Compile a glob pattern to tokens, as `fnmatch.translate` does.  The
structural fuel (always instantiated with the pattern length, which is
sufficient because `splitClass` only ever returns a proper suffix of its
input) keeps the definition kernel-reducible. -/
def translateGo : Nat → List Char → List GlobTok
  | _, [] => []
  | 0, _ :: _ => []
  | fuel + 1, c :: p =>
    if c = '*' then .star :: translateGo fuel p
    else if c = '?' then .any :: translateGo fuel p
    else if c = '[' then
      match splitClass p with
      | none => .lit '[' :: translateGo fuel p
      | some (neg, cs, rest) => .cls neg cs :: translateGo fuel rest
    else .lit c :: translateGo fuel p

/-- Compile a glob pattern to tokens. -/
def translate (p : List Char) : List GlobTok := translateGo p.length p

/-- Membership in a bracket-expression body, with `a-b` ranges compared by
code point as in `fnmatch`. -/
def inClass : List Char → Char → Bool
  | [], _ => false
  | a :: '-' :: b :: rest, c => decide (a ≤ c ∧ c ≤ b) || inClass rest c
  | a :: rest, c => a == c || inClass rest c

/-- Match compiled tokens against a whole name: `*` matches when some
suffix of the name matches the remaining tokens, `?` matches any single
character, a class matches by (possibly negated) membership, a literal by
equality, and the empty token list only matches the empty name. -/
def tokMatch : List GlobTok → List Char → Bool
  | [], s => s.isEmpty
  | .star :: ts, s => s.tails.any fun s' => tokMatch ts s'
  | .any :: ts, s =>
    match s with
    | [] => false
    | _ :: s' => tokMatch ts s'
  | .lit c :: ts, s =>
    match s with
    | [] => false
    | d :: s' => c == d && tokMatch ts s'
  | .cls neg cs :: ts, s =>
    match s with
    | [] => false
    | d :: s' => (inClass cs d != neg) && tokMatch ts s'

/-- `fnmatch.fnmatchcase`: match a name against a glob pattern. -/
def fnmatch (pat s : List Char) : Bool := tokMatch (translate pat) s

/-! ### The validator's regex

`re.match` of `^[0-9]+_[A-Za-z ]+_KCS Records Consent_.*\.pdf$`.  Both
character classes exclude the `_` that must follow them, so the regex
matches exactly when the maximal (greedy) class runs are followed by the
respective literals; the embedding below exploits that.  Under `re`
semantics `.` does not match a newline and `$` also matches just before
one final trailing newline. -/

/-- The fixed literal segment of the validator's regex. -/
def consentLit : List Char := "_KCS Records Consent_".data

/-- The regex tail `.*\.pdf$`: the name ends in `.pdf` (possibly followed
by one final newline matched by `$`) and the part matched by `.*` contains
no newline. -/
def pdfTailOk (r : List Char) : Bool :=
  (".pdf".data.isSuffixOf r && (r.take (r.length - 4)).all fun c => c != '\n') ||
  (".pdf\n".data.isSuffixOf r && (r.take (r.length - 5)).all fun c => c != '\n')

/-- `re.match` of the validator's pattern against a filename. -/
def matchesPattern (s : List Char) : Bool :=
  let ds := s.takeWhile isDigitChar
  let r1 := s.dropWhile isDigitChar
  if ds.isEmpty then false
  else
    match r1 with
    | '_' :: r2 =>
      let alphaRun := r2.takeWhile isAlphaSpace
      let r3 := r2.dropWhile isAlphaSpace
      if alphaRun.isEmpty then false
      else if consentLit.isPrefixOf r3 then pdfTailOk (r3.drop consentLit.length)
      else false
    | _ => false

/-! ### The source functions -/

/-- A directory entry: a name and whether it is a regular file
(`Path.is_file`). -/
structure DirEntry where
  name : List Char
  isFile : Bool
deriving DecidableEq

/-- The iteration of `validate_file_formats` over `folder.iterdir()`:
regular files whose name matches the pattern are appended to the valid
list, regular files whose name does not are appended to the invalid list,
non-files are skipped; both lists keep directory enumeration order. -/
def validateLoop : List DirEntry → List (List Char) × List (List Char)
  | [] => ([], [])
  | e :: rest =>
    let r := validateLoop rest
    if e.isFile then
      if matchesPattern e.name then (e.name :: r.1, r.2) else (r.1, e.name :: r.2)
    else r

/-- The message of the `ValueError` raised when a folder is absent. -/
def folderMissingMsg (folder_path : List Char) : List Char :=
  "Folder does not exist: ".data ++ folder_path

/-- `validate_file_formats(folder_path, regex_pattern)` for the fixed
pattern used by `main`.  The directory argument is `none` when no
directory exists at the path (the model treats paths as either absent or
directories). -/
def validate_file_formats (folder_path : List Char) (dir : Option (List DirEntry)) :
    Except (List Char) (List (List Char) × List (List Char)) :=
  match dir with
  | none => .error (folderMissingMsg folder_path)
  | some entries => .ok (validateLoop entries)

/-- The glob pattern built for one identifier by `get_files_for_eyf_ids`. -/
def globPattern (eyf_id : List Char) : List Char := eyf_id ++ "_*.pdf".data

/-- `folder.glob(pattern)` over the entry list: every entry (file or not)
whose name matches, in directory enumeration order. -/
def globMatches (entries : List DirEntry) (eyf_id : List Char) : List (List Char) :=
  (entries.filter fun e => fnmatch (globPattern eyf_id) e.name).map fun e => e.name

/-- The loop of `get_files_for_eyf_ids`: one `(eyf_id, matching_files)`
pair appended per identifier, in input order. -/
def matchLoop (entries : List DirEntry) : List (List Char) → List (List Char × List (List Char))
  | [] => []
  | eyf_id :: rest => (eyf_id, globMatches entries eyf_id) :: matchLoop entries rest

/-- `get_files_for_eyf_ids(folder_path, eyf_ids)`. -/
def get_files_for_eyf_ids (folder_path : List Char) (dir : Option (List DirEntry))
    (eyf_ids : List (List Char)) :
    Except (List Char) (List (List Char × List (List Char))) :=
  match dir with
  | none => .error (folderMissingMsg folder_path)
  | some entries => .ok (matchLoop entries eyf_ids)

/-- `read_eyf_ids_from_file`: one stripped string per line of the file,
`[line.strip() for line in f]`. -/
def read_eyf_ids_from_file (lines : List (List Char)) : List (List Char) :=
  lines.map pyStrip

/-- One line of console output.  Message text is represented by the
constructor together with the interpolated data. -/
inductive Msg where
  | usage
  | formatErrorHeader
  | invalidFile (name : List Char)
  | noWaiver (eyf_id : List Char)
  | multipleWaivers (eyf_id : List Char) (paths : List (List Char))
  | matchedSummary (resolved total : Nat)
  | cancelled
  | pdfsToCombine (paths : List (List Char))
  | unexpectedError (msg : List Char)
deriving DecidableEq

/-- `process_waiver_matches`: zero matches and multiple matches each emit
an error message, exactly one match appends the path to the combine
list. -/
def process_waiver_matches :
    List (List Char × List (List Char)) → List (List Char) × List Msg
  | [] => ([], [])
  | (eyf_id, filepaths) :: rest =>
    let r := process_waiver_matches rest
    match filepaths with
    | [] => (r.1, .noWaiver eyf_id :: r.2)
    | [fp] => (fp :: r.1, r.2)
    | _ :: _ :: _ => (r.1, .multipleWaivers eyf_id filepaths :: r.2)

/-- `combine_pdfs`: the placeholder assembly step only enumerates the
paths it received. -/
def combine_pdfs (pdf_list : List (List Char)) : List Msg :=
  [.pdfsToCombine pdf_list]

/-- A Python exception value. -/
inductive PyErr where
  | valueError (msg : List Char)
  | fileNotFound (path : List Char)
deriving DecidableEq

/-- How the process ends.  `exited c` is an explicit `sys.exit(c)`
(`SystemExit` is not an `Exception`, so it passes through the handler);
`completed` is falling off the end of `main`; `caught e` is the top-level
`except Exception` printing the message and then falling through;
`uncaught e` is an exception raised outside the `try` block, which
escapes `main` and terminates the interpreter with a traceback. -/
inductive Outcome where
  | exited (code : Nat)
  | completed
  | caught (e : PyErr)
  | uncaught (e : PyErr)
deriving DecidableEq

/-- The process exit status produced by each outcome: an uncaught
exception makes the interpreter exit with status 1; falling off the end
of the script (with or without a handled exception) yields status 0. -/
def exitStatus : Outcome → Nat
  | .exited c => c
  | .completed => 0
  | .caught _ => 0
  | .uncaught _ => 1

/-- The message of an exception, as printed by the handler. -/
def errMsg : PyErr → List Char
  | .valueError m => m
  | .fileNotFound p => "No such file or directory: ".data ++ p

/-- The observable world: directories, text files and the interactive
prompt answer. -/
structure World where
  dirs : List Char → Option (List DirEntry)
  files : List Char → Option (List (List Char))
  userInput : List Char

/-- `main`: the full orchestration over a given `argv` (including the
program name) and world, returning the outcome and the console output.
`read_eyf_ids_from_file` runs before the `try` block, exactly as in the
source. -/
def main (argv : List (List Char)) (w : World) : Outcome × List Msg :=
  match argv with
  | [_, folder_path, ids_file] =>
    match w.files ids_file with
    | none => (.uncaught (.fileNotFound ids_file), [])
    | some lines =>
      match validate_file_formats folder_path (w.dirs folder_path) with
      | .error m => (.caught (.valueError m), [.unexpectedError m])
      | .ok vi =>
        if 0 < vi.2.length then
          (.exited 1, .formatErrorHeader :: vi.2.map .invalidFile)
        else
          match get_files_for_eyf_ids folder_path (w.dirs folder_path)
              (read_eyf_ids_from_file lines) with
          | .error m => (.caught (.valueError m), [.unexpectedError m])
          | .ok ms =>
            if pyLower (pyStrip w.userInput) ≠ ['y'] then
              (.exited 0, (process_waiver_matches ms).2 ++
                [.matchedSummary (process_waiver_matches ms).1.length
                    (read_eyf_ids_from_file lines).length, .cancelled])
            else
              (.completed, (process_waiver_matches ms).2 ++
                [.matchedSummary (process_waiver_matches ms).1.length
                    (read_eyf_ids_from_file lines).length] ++
                combine_pdfs (process_waiver_matches ms).1)
  | _ => (.exited 1, [.usage])

/-! ### Lemmas about glob compilation and matching -/

/-- The glob metacharacters of `fnmatch`. -/
def isMeta (c : Char) : Bool := c == '*' || c == '?' || c == '['

theorem translate_cons_star (p : List Char) : translate ('*' :: p) = .star :: translate p := rfl

theorem translate_cons_lit (c : Char) (p : List Char) (hc : isMeta c = false) :
    translate (c :: p) = .lit c :: translate p := by
  simp only [isMeta, Bool.or_eq_false_iff, beq_eq_false_iff_ne, ne_eq] at hc
  show translateGo (p.length + 1) (c :: p) = .lit c :: translateGo p.length p
  simp [translateGo, hc.1.1, hc.1.2, hc.2]

theorem translate_append_litFree (l p : List Char) (h : ∀ c ∈ l, isMeta c = false) :
    translate (l ++ p) = l.map .lit ++ translate p := by
  induction l with
  | nil => simp
  | cons c l ih =>
    rw [List.cons_append, translate_cons_lit c (l ++ p) (h c (List.mem_cons_self c l)),
      ih fun d hd => h d (List.mem_cons_of_mem c hd), List.map_cons, List.cons_append]

theorem translate_litFree (l : List Char) (h : ∀ c ∈ l, isMeta c = false) :
    translate l = l.map .lit := by
  have h' := translate_append_litFree l [] h
  rw [List.append_nil] at h'
  rw [h', show translate ([] : List Char) = [] from rfl, List.append_nil]

theorem tokMatch_nil_iff (s : List Char) : tokMatch [] s = true ↔ s = [] := by
  simp [tokMatch, List.isEmpty_iff]

theorem tokMatch_lits_append (l : List Char) (ts : List GlobTok) (s : List Char) :
    tokMatch (l.map .lit ++ ts) s = true ↔ ∃ s', s = l ++ s' ∧ tokMatch ts s' = true := by
  induction l generalizing s with
  | nil => simp
  | cons c l ih =>
    cases s with
    | nil => simp [tokMatch]
    | cons d s' =>
      constructor
      · intro hm
        have hm' : (c == d && tokMatch (l.map .lit ++ ts) s') = true := hm
        rw [Bool.and_eq_true, beq_iff_eq] at hm'
        obtain ⟨rfl, hm2⟩ := hm'
        obtain ⟨t, ht1, ht2⟩ := (ih s').mp hm2
        exact ⟨t, by rw [ht1, List.cons_append], ht2⟩
      · rintro ⟨t, het, ht⟩
        rw [List.cons_append] at het
        injection het with h1 h2
        subst h1
        subst h2
        have hrec : tokMatch (l.map .lit ++ ts) (l ++ t) = true :=
          (ih (l ++ t)).mpr ⟨t, rfl, ht⟩
        simp [tokMatch, hrec]

theorem tokMatch_lits (l s : List Char) : tokMatch (l.map .lit) s = true ↔ s = l := by
  have h := tokMatch_lits_append l [] s
  rw [List.append_nil] at h
  rw [h]
  constructor
  · rintro ⟨s', rfl, ht⟩
    rw [(tokMatch_nil_iff s').mp ht, List.append_nil]
  · rintro rfl
    exact ⟨[], by simp, by simp [tokMatch]⟩

theorem tokMatch_star_iff (ts : List GlobTok) (s : List Char) :
    tokMatch (.star :: ts) s = true ↔ ∃ b, b <:+ s ∧ tokMatch ts b = true := by
  simp [tokMatch, List.any_eq_true, List.mem_tails]

/-- A glob pattern of the shape `literal ++ * ++ literal` matches exactly
the strings of the shape `literal ++ anything ++ literal`. -/
theorem fnmatch_lit_star_lit (l1 l2 s : List Char)
    (h1 : ∀ c ∈ l1, isMeta c = false) (h2 : ∀ c ∈ l2, isMeta c = false) :
    fnmatch (l1 ++ '*' :: l2) s = true ↔ ∃ t, s = l1 ++ (t ++ l2) := by
  unfold fnmatch
  rw [translate_append_litFree l1 ('*' :: l2) h1, translate_cons_star, translate_litFree l2 h2,
    tokMatch_lits_append]
  constructor
  · rintro ⟨s', rfl, hstar⟩
    obtain ⟨b, hb, hm⟩ := (tokMatch_star_iff _ s').mp hstar
    obtain ⟨t, rfl⟩ := hb
    rw [tokMatch_lits] at hm
    exact ⟨t, by rw [hm]⟩
  · rintro ⟨t, rfl⟩
    exact ⟨t ++ l2, rfl, (tokMatch_star_iff _ _).mpr ⟨l2, ⟨t, rfl⟩, (tokMatch_lits l2 l2).mpr rfl⟩⟩

/-- A decomposition `id ++ "_" ++ t ++ ".pdf"` exists exactly when `id_` is
a prefix and `.pdf` a suffix: the two cannot overlap, since an overlap
would put the `_` among the last four characters `.pdf`. -/
theorem decomp_iff_prefix_suffix (eyf_id n : List Char) :
    (∃ t, n = (eyf_id ++ ['_']) ++ (t ++ ['.', 'p', 'd', 'f'])) ↔
      ((eyf_id ++ ['_']) <+: n ∧ ['.', 'p', 'd', 'f'] <:+ n) := by
  constructor
  · rintro ⟨t, rfl⟩
    exact ⟨⟨t ++ ['.', 'p', 'd', 'f'], rfl⟩,
      ⟨(eyf_id ++ ['_']) ++ t, by simp [List.append_assoc]⟩⟩
  · rintro ⟨⟨u, hu⟩, hs⟩
    by_cases hlen : 4 ≤ u.length
    · have hu' : u <:+ n := ⟨eyf_id ++ ['_'], hu⟩
      have h4 : ['.', 'p', 'd', 'f'] <:+ u :=
        List.suffix_of_suffix_length_le hs hu' (by simpa using hlen)
      obtain ⟨t, rfl⟩ := h4
      exact ⟨t, hu.symm⟩
    · exfalso
      have hsu : ('_' :: u) <:+ n := ⟨eyf_id, by rw [← hu]; simp⟩
      have hcu : ('_' :: u) <:+ ['.', 'p', 'd', 'f'] :=
        List.suffix_of_suffix_length_le hsu hs (by simp; omega)
      exact absurd (hcu.subset (List.mem_cons_self _ _)) (by decide)

/-- For an identifier free of glob metacharacters, the glob built by the
matcher accepts a name exactly when `<id>_` is a literal prefix and `.pdf`
a literal suffix of it. -/
theorem fnmatch_globPattern_iff (eyf_id n : List Char) (h : ∀ c ∈ eyf_id, isMeta c = false) :
    fnmatch (globPattern eyf_id) n =
      ((eyf_id ++ ['_']).isPrefixOf n && ".pdf".data.isSuffixOf n) := by
  have hpat : globPattern eyf_id = (eyf_id ++ ['_']) ++ '*' :: ['.', 'p', 'd', 'f'] := by
    show eyf_id ++ "_*.pdf".data = (eyf_id ++ ['_']) ++ '*' :: ['.', 'p', 'd', 'f']
    rw [List.append_assoc]
    rfl
  have h1 : ∀ c ∈ eyf_id ++ ['_'], isMeta c = false := by
    intro c hc
    rcases List.mem_append.mp hc with h' | h'
    · exact h c h'
    · rw [List.mem_singleton.mp h']
      decide
  have hiff := fnmatch_lit_star_lit (eyf_id ++ ['_']) ['.', 'p', 'd', 'f'] n h1 (by decide)
  rw [decomp_iff_prefix_suffix] at hiff
  rw [hpat, Bool.eq_iff_iff, Bool.and_eq_true]
  rw [hiff]
  constructor
  · rintro ⟨hp, hs⟩
    exact ⟨List.isPrefixOf_iff_prefix.mpr hp, List.isSuffixOf_iff_suffix.mpr hs⟩
  · rintro ⟨hp, hs⟩
    exact ⟨List.isPrefixOf_iff_prefix.mp hp, List.isSuffixOf_iff_suffix.mp hs⟩

/-- Modelled directly from the spec's words, for comparison with the code's
glob: the entries whose name begins with the identifier followed by an
underscore and ends with `.pdf`. -/
def literalMatchesSpec (entries : List DirEntry) (eyf_id : List Char) : List (List Char) :=
  (entries.filter fun e =>
    (eyf_id ++ ['_']).isPrefixOf e.name && ".pdf".data.isSuffixOf e.name).map fun e => e.name

/-! ### Claim theorems -/

/-- C1, counterexample: the Matcher's comparison is not literal when the
identifier contains a glob metacharacter.  For the identifier `*` and a
directory holding `x_a.pdf`, the match list is `[x_a.pdf]` although
`x_a.pdf` does not begin with `*_`, because `Path.glob` interprets `*` as
a wildcard. -/
theorem matcher_glob_counterexample :
    globMatches [⟨"x_a.pdf".data, true⟩] ['*'] = ["x_a.pdf".data] ∧
    (['*'] ++ ['_']).isPrefixOf "x_a.pdf".data = false := by
  decide

/-- C1, amended: for every identifier containing none of the glob
metacharacters `*`, `?`, `[` (and no path separator, which would make the
glob descend into subdirectories, outside this single-directory model),
the match list for that identifier consists exactly of the directory
entries whose name begins with the identifier followed by an underscore
and ends with `.pdf`, by case-sensitive literal comparison. -/
theorem matcher_literal_of_no_metachar (entries : List DirEntry) (eyf_id : List Char)
    (h : ∀ c ∈ eyf_id, isMeta c = false) (_hslash : '/' ∉ eyf_id) :
    globMatches entries eyf_id = literalMatchesSpec entries eyf_id := by
  unfold globMatches literalMatchesSpec
  congr 1
  apply List.filter_congr
  intro e _
  exact fnmatch_globPattern_iff eyf_id e.name h

/-- Witness for C1's amended theorem at a concrete directory and
identifier. -/
theorem matcher_literal_of_no_metachar_witness :
    globMatches [⟨"100_Jane Doe_KCS Records Consent_2023.pdf".data, true⟩] "100".data =
      literalMatchesSpec [⟨"100_Jane Doe_KCS Records Consent_2023.pdf".data, true⟩]
        "100".data :=
  matcher_literal_of_no_metachar _ _ (by decide) (by decide)

/-- The validator loop is the filter of the regular files by the pattern
on one side and by its negation on the other, in enumeration order. -/
theorem validateLoop_eq (entries : List DirEntry) :
    validateLoop entries =
      ((entries.filter fun e => e.isFile && matchesPattern e.name).map fun e => e.name,
       (entries.filter fun e => e.isFile && !matchesPattern e.name).map fun e => e.name) := by
  induction entries with
  | nil => rfl
  | cons e rest ih =>
    by_cases hf : e.isFile = true <;> by_cases hm : matchesPattern e.name = true <;>
      simp_all [validateLoop]

/-- C5: the Validator partitions the regular files of the directory into
the names matching the regex and the names not matching it, both in
enumeration order; when every file matches, the invalid list is empty and
the valid list has the directory's file count; a name with a non-digit
prefix does not match. -/
theorem validator_partition (entries : List DirEntry) :
    (validateLoop entries).1 =
      ((entries.filter fun e => e.isFile && matchesPattern e.name).map fun e => e.name) ∧
    (validateLoop entries).2 =
      ((entries.filter fun e => e.isFile && !matchesPattern e.name).map fun e => e.name) ∧
    ((∀ e ∈ entries, e.isFile = true → matchesPattern e.name = true) →
      (validateLoop entries).2 = [] ∧
      (validateLoop entries).1.length = (entries.filter fun e => e.isFile).length) ∧
    matchesPattern "abc_Smith_KCS Records Consent_x.pdf".data = false := by
  refine ⟨by rw [validateLoop_eq], by rw [validateLoop_eq], ?_, by decide⟩
  intro hall
  rw [validateLoop_eq]
  constructor
  · have hnil : entries.filter (fun e => e.isFile && !matchesPattern e.name) = [] := by
      rw [List.filter_eq_nil_iff]
      intro e he
      by_cases hf : e.isFile = true
      · simp [hf, hall e he hf]
      · have hf' : e.isFile = false := by simpa using hf
        simp [hf']
    simp [hnil]
  · have hsame : entries.filter (fun e => e.isFile && matchesPattern e.name) =
        entries.filter fun e => e.isFile := by
      apply List.filter_congr
      intro e he
      by_cases hf : e.isFile = true
      · simp [hf, hall e he hf]
      · have hf' : e.isFile = false := by simpa using hf
        simp [hf']
    rw [hsame, List.length_map]

/-- Witness for C5 at a one-file directory whose file matches the
pattern. -/
theorem validator_partition_witness :
    (validateLoop [⟨"100_Jane Doe_KCS Records Consent_2023.pdf".data, true⟩]).2 = [] ∧
    (validateLoop [⟨"100_Jane Doe_KCS Records Consent_2023.pdf".data, true⟩]).1.length =
      (([⟨"100_Jane Doe_KCS Records Consent_2023.pdf".data, true⟩] : List DirEntry).filter
        fun e => e.isFile).length :=
  (validator_partition _).2.2.1 (by decide)

/-- C7: the Validator raises its folder-does-not-exist failure exactly
when no directory exists at the path, and returns the classification
normally whenever the directory exists. -/
theorem validator_missing_dir (folder_path : List Char) (dir : Option (List DirEntry)) :
    (validate_file_formats folder_path dir = .error (folderMissingMsg folder_path) ↔
      dir = none) ∧
    (∀ entries, dir = some entries →
      validate_file_formats folder_path dir = .ok (validateLoop entries)) := by
  cases dir with
  | none => exact ⟨by simp [validate_file_formats], fun es h => by cases h⟩
  | some es =>
    refine ⟨by simp [validate_file_formats], ?_⟩
    intro es' h
    injection h with h'
    subst h'
    rfl

/-- Witness for C7 at a concrete existing directory. -/
theorem validator_missing_dir_witness :
    validate_file_formats "waivers".data (some [⟨"a.pdf".data, true⟩]) =
      .ok (validateLoop [⟨"a.pdf".data, true⟩]) :=
  (validator_missing_dir "waivers".data (some [⟨"a.pdf".data, true⟩])).2 _ rfl

/-- C8: the Validator is deterministic: two runs over the same observed
directory contents produce identical valid/invalid classifications (the
embedding is a pure function of the directory state). -/
theorem validator_deterministic (es₁ es₂ : List DirEntry) (h : es₁ = es₂) :
    validateLoop es₁ = validateLoop es₂ ∧
    ∀ p₁ p₂ d₁ d₂, p₁ = p₂ → d₁ = d₂ →
      validate_file_formats p₁ d₁ = validate_file_formats p₂ d₂ := by
  subst h
  exact ⟨rfl, fun p₁ p₂ d₁ d₂ hp hd => by rw [hp, hd]⟩

/-- Witness for C8 at a concrete directory. -/
theorem validator_deterministic_witness :
    validateLoop [⟨"x.pdf".data, true⟩] = validateLoop [⟨"x.pdf".data, true⟩] :=
  (validator_deterministic [⟨"x.pdf".data, true⟩] [⟨"x.pdf".data, true⟩] rfl).1

/-- A line consisting only of whitespace strips to the empty string. -/
theorem pyStrip_all_space (l : List Char) (h : ∀ c ∈ l, isPySpace c = true) :
    pyStrip l = [] := by
  unfold pyStrip
  rw [List.dropWhile_eq_nil_iff.mpr h]
  rfl

/-- C3, counterexample: the loader keeps a whitespace-only line as an
empty identifier instead of dropping it, so its output is not one element
per non-empty line. -/
theorem loader_blank_lines_counterexample :
    read_eyf_ids_from_file ["a".data, " ".data, "b".data] ≠ ["a".data, "b".data] ∧
    read_eyf_ids_from_file ["a".data, " ".data, "b".data] = ["a".data, [], "b".data] := by
  decide

/-- C3, amended: the loader returns one identifier per line of the source
(in file order, surrounding whitespace stripped), and a blank or
whitespace-only line contributes an empty-string identifier rather than
no element. -/
theorem loader_per_line_amended (lines : List (List Char)) (i : Nat) :
    (read_eyf_ids_from_file lines).length = lines.length ∧
    (read_eyf_ids_from_file lines)[i]? = lines[i]?.map pyStrip ∧
    ∀ l ∈ lines, (∀ c ∈ l, isPySpace c = true) → pyStrip l = [] := by
  refine ⟨by simp [read_eyf_ids_from_file], by simp [read_eyf_ids_from_file], ?_⟩
  intro l _ h
  exact pyStrip_all_space l h

/-- Witness for C3's amended theorem at a two-line source whose second
line is whitespace-only. -/
theorem loader_per_line_amended_witness :
    (read_eyf_ids_from_file ["a".data, " ".data]).length = 2 ∧
    (read_eyf_ids_from_file ["a".data, " ".data])[1]? = some [] := by
  have h := loader_per_line_amended ["a".data, " ".data] 1
  refine ⟨h.1, ?_⟩
  rw [h.2.1]
  decide

/-- The reporter loop as two filters over the match results: the resolved
paths of the singleton results, and one error message per empty or
plural result, both in input order. -/
theorem process_waiver_matches_eq (l : List (List Char × List (List Char))) :
    process_waiver_matches l =
      (l.filterMap fun p =>
        match p.2 with
        | [fp] => some fp
        | _ => none,
       l.filterMap fun p =>
        match p.2 with
        | [] => some (.noWaiver p.1)
        | [_] => none
        | _ :: _ :: _ => some (.multipleWaivers p.1 p.2)) := by
  induction l with
  | nil => rfl
  | cons p rest ih =>
    obtain ⟨eyf_id, fps⟩ := p
    rcases fps with _ | ⟨f1, _ | ⟨f2, fs⟩⟩ <;>
      simp [process_waiver_matches, List.filterMap_cons, ih]

/-- C4: the resolved output is exactly the unique path of each result
whose match list is a singleton, in identifier order; empty and plural
results contribute nothing to it and each yields one error report; on the
spec's example input the resolved output is exactly `[2_a.pdf]` with the
two expected errors. -/
theorem reporter_resolved (l : List (List Char × List (List Char))) :
    (process_waiver_matches l).1 =
      (l.filterMap fun p =>
        match p.2 with
        | [fp] => some fp
        | _ => none) ∧
    (process_waiver_matches l).2 =
      (l.filterMap fun p =>
        match p.2 with
        | [] => some (.noWaiver p.1)
        | [_] => none
        | _ :: _ :: _ => some (.multipleWaivers p.1 p.2)) ∧
    process_waiver_matches
        [("1".data, []), ("2".data, ["2_a.pdf".data]),
         ("3".data, ["3_a.pdf".data, "3_b.pdf".data])] =
      (["2_a.pdf".data],
       [.noWaiver "1".data,
        .multipleWaivers "3".data ["3_a.pdf".data, "3_b.pdf".data]]) := by
  refine ⟨?_, ?_, by decide⟩ <;> rw [process_waiver_matches_eq]

/-- The matcher loop is one match-result pair per identifier occurrence. -/
theorem matchLoop_eq (entries : List DirEntry) (ids : List (List Char)) :
    matchLoop entries ids = ids.map fun eyf_id => (eyf_id, globMatches entries eyf_id) := by
  induction ids with
  | nil => rfl
  | cons i is ih => simp [matchLoop, ih]

/-- C10: duplicate identifiers are processed independently and
identically: the matcher produces one result per occurrence (it maps over
the identifier sequence, so it distributes over concatenation), the
reporter's resolved output distributes the same way, and a duplicated
identifier resolving to one file contributes that path once per
occurrence. -/
theorem duplicates_processed_independently (entries : List DirEntry)
    (ids ids' : List (List Char)) :
    matchLoop entries (ids ++ ids') = matchLoop entries ids ++ matchLoop entries ids' ∧
    (matchLoop entries ids).length = ids.length ∧
    (∀ ms ms' : List (List Char × List (List Char)),
      (process_waiver_matches (ms ++ ms')).1 =
        (process_waiver_matches ms).1 ++ (process_waiver_matches ms').1) ∧
    (process_waiver_matches
        (matchLoop [⟨"5_a.pdf".data, true⟩] ["5".data, "5".data])).1 =
      ["5_a.pdf".data, "5_a.pdf".data] := by
  refine ⟨?_, ?_, ?_, by decide⟩
  · rw [matchLoop_eq, matchLoop_eq, matchLoop_eq, List.map_append]
  · rw [matchLoop_eq, List.length_map]
  · intro ms ms'
    rw [process_waiver_matches_eq, process_waiver_matches_eq, process_waiver_matches_eq,
      List.filterMap_append]

/-- A world with no directories and no readable files. -/
def emptyWorld : World := ⟨fun _ => none, fun _ => none, "y".data⟩

/-- C2, counterexample: with the identifier file missing, the failure of
step 2 is raised before the `try` block, so it is not caught and nothing
is printed — the run ends as an uncaught exception instead of a handled
one. -/
theorem main_step2_uncaught_counterexample :
    main ["p".data, "d".data, "i".data] emptyWorld =
      (.uncaught (.fileNotFound "i".data), []) := by
  decide

/-- C2, amended: a failure raised inside the `try` block (steps 3–7, here
the missing target directory) is caught at the top level, its message is
printed, and the run falls through without an explicit exit; but a
missing identifier file fails in step 2, before the handler is installed,
and propagates as an uncaught exception. -/
theorem main_error_handling_amended (prog folder idsf : List Char) (w : World) :
    (w.files idsf = none →
      main [prog, folder, idsf] w = (.uncaught (.fileNotFound idsf), [])) ∧
    (∀ lines, w.files idsf = some lines → w.dirs folder = none →
      main [prog, folder, idsf] w =
        (.caught (.valueError (folderMissingMsg folder)),
         [.unexpectedError (folderMissingMsg folder)])) := by
  constructor
  · intro h
    simp [main, h]
  · intro lines hf hd
    simp [main, hf, hd, validate_file_formats]

/-- A world whose directories are missing but whose files are readable. -/
def noDirWorld : World := ⟨fun _ => none, fun _ => some ["5".data], "y".data⟩

/-- Witness for C2's amended theorem: a readable identifier file and a
missing directory lead to the caught, printed failure. -/
theorem main_error_handling_witness :
    main ["p".data, "d".data, "i".data] noDirWorld =
      (.caught (.valueError (folderMissingMsg "d".data)),
       [.unexpectedError (folderMissingMsg "d".data)]) :=
  (main_error_handling_amended "p".data "d".data "i".data noDirWorld).2 ["5".data] rfl rfl

/-- C6, counterexample: a run with the correct argument count and no
format violation reported (the validator never even runs) still ends with
status 1, because the missing identifier file terminates the interpreter
through an uncaught exception — a third exit-1 situation beyond the two
claimed. -/
theorem exit_one_counterexample :
    exitStatus (main ["p".data, "d".data, "i".data] emptyWorld).1 = 1 ∧
    (["p".data, "d".data, "i".data] : List (List Char)).length = 3 ∧
    (main ["p".data, "d".data, "i".data] emptyWorld).2 = [] := by
  decide

/-- C6, amended: with the correct argument count the program ends with
status 1 exactly when the identifier file is unreadable (uncaught
exception) or the validator finds at least one violation; a wrong
argument count always exits 1; and on violations every violating filename
is reported together after the header, with no matching performed and
nothing else printed. -/
theorem exit_one_amended (prog folder idsf : List Char) (w : World) :
    (exitStatus (main [prog, folder, idsf] w).1 = 1 ↔
      (w.files idsf = none ∨
        ∃ entries, w.dirs folder = some entries ∧ (validateLoop entries).2 ≠ [])) ∧
    (∀ argv : List (List Char), argv.length ≠ 3 → exitStatus (main argv w).1 = 1) ∧
    (∀ lines entries, w.files idsf = some lines → w.dirs folder = some entries →
      (validateLoop entries).2 ≠ [] →
      main [prog, folder, idsf] w =
        (.exited 1, .formatErrorHeader :: (validateLoop entries).2.map .invalidFile)) := by
  refine ⟨?_, ?_, ?_⟩
  · cases hf : w.files idsf with
    | none => simp [main, hf, exitStatus]
    | some lines =>
      cases hd : w.dirs folder with
      | none => simp [main, hf, hd, validate_file_formats, exitStatus]
      | some entries =>
        by_cases hinv : (validateLoop entries).2 = []
        · have hlen : ¬0 < (validateLoop entries).2.length := by simp [hinv]
          by_cases hy : pyLower (pyStrip w.userInput) ≠ ['y'] <;>
            simp [main, hf, hd, validate_file_formats, get_files_for_eyf_ids, hlen, hy,
              exitStatus, hinv]
        · have hlen : 0 < (validateLoop entries).2.length := List.length_pos.mpr hinv
          simp [main, hf, hd, validate_file_formats, hlen, exitStatus, hinv]
  · intro argv hlen
    match argv with
    | [] => rfl
    | [a] => rfl
    | [a, b] => rfl
    | [a, b, c] => exact absurd rfl hlen
    | a :: b :: c :: d :: rest => rfl
  · intro lines entries hf hd hinv
    have hlen : 0 < (validateLoop entries).2.length := List.length_pos.mpr hinv
    simp [main, hf, hd, validate_file_formats, hlen]

/-- A world with one badly named file in the directory. -/
def badFileWorld : World :=
  ⟨fun _ => some [⟨"bad.txt".data, true⟩], fun _ => some ["5".data], "y".data⟩

/-- Witness for C6's amended theorem: one violating file is reported
after the header and the run exits 1 before any matching. -/
theorem exit_one_witness :
    main ["p".data, "d".data, "i".data] badFileWorld =
      (.exited 1,
       .formatErrorHeader :: (validateLoop [⟨"bad.txt".data, true⟩]).2.map .invalidFile) :=
  (exit_one_amended "p".data "d".data "i".data badFileWorld).2.2 ["5".data]
    [⟨"bad.txt".data, true⟩] rfl rfl (by decide)

/-- C9: the loader returns one element per line of the file — blank and
whitespace-only lines included, kept as empty-string identifiers — so the
output length equals the file's line count and the total shown in the
confirmation prompt counts blank lines too. -/
theorem loader_counts_blank_lines (prog folder idsf : List Char) (w : World)
    (lines : List (List Char)) (entries : List DirEntry)
    (hf : w.files idsf = some lines) (hd : w.dirs folder = some entries)
    (hv : (validateLoop entries).2 = []) :
    (read_eyf_ids_from_file lines).length = lines.length ∧
    (∀ l ∈ lines, (∀ c ∈ l, isPySpace c = true) → pyStrip l = []) ∧
    Msg.matchedSummary
        (process_waiver_matches (matchLoop entries (read_eyf_ids_from_file lines))).1.length
        lines.length ∈ (main [prog, folder, idsf] w).2 := by
  refine ⟨by simp [read_eyf_ids_from_file], fun l _ h => pyStrip_all_space l h, ?_⟩
  have hlen : ¬0 < (validateLoop entries).2.length := by simp [hv]
  by_cases hy : pyLower (pyStrip w.userInput) ≠ ['y'] <;>
    simp [main, hf, hd, validate_file_formats, get_files_for_eyf_ids, hlen, hy,
      read_eyf_ids_from_file, combine_pdfs]

/-- A world for the C9 witness: one matching file, a one-line identifier
file. -/
def oneFileWorld : World :=
  ⟨fun _ => some [⟨"100_Jane Doe_KCS Records Consent_2023.pdf".data, true⟩],
   fun _ => some ["100".data], "y".data⟩

/-- Witness for C9 at a concrete run whose prompt reports 1 out of 1. -/
theorem loader_counts_blank_lines_witness :
    Msg.matchedSummary
        (process_waiver_matches
          (matchLoop [⟨"100_Jane Doe_KCS Records Consent_2023.pdf".data, true⟩]
            (read_eyf_ids_from_file ["100".data]))).1.length
        (["100".data] : List (List Char)).length ∈
      (main ["p".data, "d".data, "i".data] oneFileWorld).2 :=
  (loader_counts_blank_lines "p".data "d".data "i".data oneFileWorld ["100".data]
    [⟨"100_Jane Doe_KCS Records Consent_2023.pdf".data, true⟩] rfl rfl (by decide)).2.2

end PdfReq
